import Mathlib

/-!
Shallow embedding of `src/lib/enums.hpp` from the jtm repository.

The header has two independent parts:

1. An enum/string pairing facility: `ENUM` / `ENUMSTR` declare an enumeration from an
   ordered comma-separated list of identifiers, `STRINGIFY` emits the parallel string
   table, and `ENUMS` subscripts that table.  Identifiers are embedded as their literal
   source spelling (`String`); an enumeration is embedded as the ordered list of
   (identifier, integer value) pairs that the C++ declaration produces.

2. A `stdException` value type: three fields (`msg_`, `func_`, `ec_`), three accessors
   (`what`, `where`, `code`) and a call-style update `operator()`.  A `const char *`
   member is embedded as `Option String` with `none` for a null pointer; the mutation of
   the single process-wide instance `__Expeption__` is embedded as explicit state
   passing.
-/

/-- Modelled from the spec: `MACRO_TO_ARGS` comes from `macrolib.h`, which is not under
`src/` (only `enums.hpp` invokes it).  Per the spec the facility applies the supplied
per-item macro to every identifier of the ordered list, in list order. -/
def MACRO_TO_ARGS (m : String → α) (enums : List String) : List α :=
  enums.map m

/-- `#define __COMMA_SEPARATED__(x) x,` — emits the identifier itself (the trailing
comma only separates list items in the expansion). -/
def __COMMA_SEPARATED__ (x : String) : String := x

/-- `#define __STR_COMMA_SEPARATED__(x) #x,` — preprocessor stringification of the
identifier token yields its literal source spelling, which is exactly how identifiers
are represented in this embedding. -/
def __STR_COMMA_SEPARATED__ (x : String) : String := x

/-- `ENUM(enum_class, enums...)` expands to
`enum enum_class { MACRO_TO_ARGS(__COMMA_SEPARATED__, enums) };`.
C++ assigns the enumerators implicit sequential values starting at 0, in declaration
order; the declared enumeration is embedded as its ordered list of
(identifier, value) pairs. -/
def ENUM (enums : List String) : List (String × Nat) :=
  (MACRO_TO_ARGS __COMMA_SEPARATED__ enums).enum.map (fun p => (p.2, p.1))

/-- `ENUMSTR(enum_class, enums...)` declares the same enumeration as `ENUM` and in
addition only declares (without initializing) the parallel array
`static const char * enum_class ## _str[];` — its contents are supplied separately by
`STRINGIFY`. -/
def ENUMSTR (enums : List String) : List (String × Nat) :=
  ENUM enums

/-- `STRINGIFY(enum_class, enums...)` expands to
`const char * enum_class ## _str[] { MACRO_TO_ARGS(__STR_COMMA_SEPARATED__, enums) };` —
the string table holding the literal spelling of each identifier, in list order. -/
def STRINGIFY (enums : List String) : List String :=
  MACRO_TO_ARGS __STR_COMMA_SEPARATED__ enums

/-- `#define ENUMS(enum_class, enum_idx) enum_class ## _str[enum_idx]` — a raw array
subscript with an `int` index and no bounds checking.  An in-range subscript reads the
table entry; an out-of-range subscript has no defined value and is embedded as
`none`. -/
def ENUMS (tbl : List String) (enum_idx : Int) : Option String :=
  if enum_idx < 0 then none else tbl.get? enum_idx.toNat

/-- `class stdException : public std::exception` with members
`const char * msg_{nullptr}; const char * func_{nullptr}; int ec_{-1};`.
The member initializers are the field defaults. -/
structure stdException where
  msg_ : Option String := none
  func_ : Option String := none
  ec_ : Int := -1
deriving DecidableEq, Repr

/-- `what()` returns `msg_`. -/
def stdException.what (e : stdException) : Option String := e.msg_

/-- `where()` returns `func_`. -/
def stdException.whereFn (e : stdException) : Option String := e.func_

/-- `code()` returns `ec_`. -/
def stdException.code (e : stdException) : Int := e.ec_

/-- `operator()(int r, const char *msg, const char *fnc)` assigns
`ec_ = r; msg_ = msg; func_ = fnc;` on `*this` and returns `*this` by reference.
The result pair is (state of the instance after the call, value denoted by the returned
reference); the body makes them one and the same. -/
def stdException.callOp (e : stdException) (r : Int) (msg fnc : Option String) :
    stdException × stdException :=
  let e' : stdException := { msg_ := msg, func_ := fnc, ec_ := r }
  (e', e')

/-- A default-constructed `stdException`, fields given by the member initializers. -/
def stdException.fresh : stdException := {}

/-- The single process-wide staging instance `} __Expeption__;` declared at the end of
the class definition — default-constructed. -/
def __Expeption__ : stdException := stdException.fresh

/-- `EXCEPTIONS(THROW_ENUM)` generates the member
`stdException & __exp__(THROW_ENUM reason, const char *where) const
  { return __Expeption__(reason, THROW_ENUM ## _str[reason], where); }`.
It is parameterized here by the current state `g` of the staging instance (explicit
state passing) and by the declaring class's string table `tbl`. -/
def __exp__ (g : stdException) (tbl : List String) (reason : Nat) (wh : Option String) :
    stdException × stdException :=
  g.callOp (reason : Int) (ENUMS tbl (reason : Int)) wh

/-- `#define EXP(TROW_REASON) __exp__(TROW_REASON, __PRETTY_FUNCTION__)` — the macro
supplies the current function's name as the origin. -/
def EXP (g : stdException) (tbl : List String) (reason : Nat)
    (prettyFunction : String) : stdException × stdException :=
  __exp__ g tbl reason (some prettyFunction)

/-- Throwing a `stdException` copies it by value; the implicit copy constructor is
memberwise (shallow: the `const char *` members are copied as pointers). -/
def stdException.copyCtor (e : stdException) : stdException :=
  { msg_ := e.msg_, func_ := e.func_, ec_ := e.ec_ }

/-- Helper: unfolding `ENUM` to the enumerated input list with swapped components. -/
theorem ENUM_eq_enum_map (L : List String) :
    ENUM L = L.enum.map (fun p => (p.2, p.1)) := by
  simp only [ENUM, MACRO_TO_ARGS, show __COMMA_SEPARATED__ = id from rfl, List.map_id]

/-- C2: for every ordered list L of N >= 1 distinct identifiers, the enumeration
declared by `ENUM` (or `ENUMSTR`, which declares the same enumeration) has exactly N
enumerators, and the i-th enumerator is the i-th identifier of L with integer value i —
values 0 through N-1 assigned sequentially in declaration order. -/
theorem ENUM_sequential_values (L : List String) (hne : 1 ≤ L.length)
    (hnd : L.Nodup) :
    (ENUM L).length = L.length ∧ ENUMSTR L = ENUM L ∧
      ∀ i, (h : i < L.length) → (ENUM L).get? i = some (L.get ⟨i, h⟩, i) := by
  refine ⟨?_, rfl, ?_⟩
  · simp [ENUM_eq_enum_map]
  · intro i h
    simp [ENUM_eq_enum_map, List.get?_map, List.get?_enum, List.get?_eq_get h]

/-- Witness for C2 at the concrete list of the spec's traffic-light scenario. -/
theorem ENUM_sequential_values_witness :
    (ENUM ["Red", "Amber", "Green"]).length = 3 ∧
      (ENUM ["Red", "Amber", "Green"]).get? 1 = some ("Amber", 1) := by
  have h := ENUM_sequential_values ["Red", "Amber", "Green"] (by decide) (by decide)
  exact ⟨h.1, h.2.2 1 (by decide)⟩

/-- C1: for every ordered list L of N >= 1 distinct identifiers, the string table
generated by `STRINGIFY` (filling the array `ENUMSTR` declared) has exactly N entries,
and the entry at index i is the literal source spelling of the i-th identifier of L,
for every i in [0, N-1] — the table's index order stays in sync with the enumeration's
integer assignment. -/
theorem STRINGIFY_table_in_sync (L : List String) (hne : 1 ≤ L.length)
    (hnd : L.Nodup) :
    (STRINGIFY L).length = L.length ∧
      ∀ i, (h : i < L.length) → (STRINGIFY L).get? i = some (L.get ⟨i, h⟩) := by
  constructor
  · simp [STRINGIFY, MACRO_TO_ARGS]
  · intro i h
    simp only [STRINGIFY, MACRO_TO_ARGS,
      show __STR_COMMA_SEPARATED__ = id from rfl, List.map_id]
    exact List.get?_eq_get h

/-- Witness for C1 at the spec's traffic-light list. -/
theorem STRINGIFY_table_in_sync_witness :
    (STRINGIFY ["Red", "Amber", "Green"]).length = 3 ∧
      (STRINGIFY ["Red", "Amber", "Green"]).get? 2 = some "Green" := by
  have h := STRINGIFY_table_in_sync ["Red", "Amber", "Green"] (by decide) (by decide)
  exact ⟨h.1, h.2 2 (by decide)⟩

/-- C7: for every string table and every valid index i in [0, N-1], `ENUMS` returns
exactly the string stored at entry i of that table. -/
theorem ENUMS_valid_lookup (tbl : List String) (i : Nat) (h : i < tbl.length) :
    ENUMS tbl (i : Int) = some (tbl.get ⟨i, h⟩) := by
  simp only [ENUMS]
  rw [if_neg (by omega), Int.toNat_natCast]
  exact List.get?_eq_get h

/-- Witness for C7: for the list {Red, Amber, Green}, lookup at index 1 returns
"Amber". -/
theorem ENUMS_valid_lookup_witness :
    ENUMS (STRINGIFY ["Red", "Amber", "Green"]) ((1 : Nat) : Int) = some "Amber" := by
  have h := ENUMS_valid_lookup (STRINGIFY ["Red", "Amber", "Green"]) 1 (by decide)
  simpa using h

/-- C8: for every string table of length N and every `int` index outside [0, N-1], the
unchecked subscript `ENUMS` never silently yields the string stored for some valid
index j of that table (in the embedding the out-of-range access has no defined value,
`none`, which differs from every in-range result `some entry`). -/
theorem ENUMS_out_of_range_not_valid_entry (tbl : List String) (i : Int)
    (hout : i < 0 ∨ (tbl.length : Int) ≤ i) :
    ∀ j, (h : j < tbl.length) → ENUMS tbl i ≠ some (tbl.get ⟨j, h⟩) := by
  intro j h
  have hnone : ENUMS tbl i = none := by
    rcases hout with hneg | hge
    · simp [ENUMS, hneg]
    · have : ¬ i < 0 := by omega
      simp only [ENUMS, if_neg this]
      exact List.get?_eq_none.mpr (by omega)
  simp [hnone]

/-- Witness for C8: index 3 on the 3-entry traffic-light table yields no valid entry. -/
theorem ENUMS_out_of_range_not_valid_entry_witness :
    ENUMS (STRINGIFY ["Red", "Amber", "Green"]) 3 ≠ some "Red" := by
  have h := ENUMS_out_of_range_not_valid_entry (STRINGIFY ["Red", "Amber", "Green"]) 3
    (Or.inr (by decide)) 0 (by decide)
  simpa using h

/-- C3: raising reason r from a function labeled f via the `EXCEPTIONS`-generated
`__exp__` helper (as `EXP` does) yields an exception value whose `code()` equals r,
whose `what()` is the string-table entry at index r, and whose `where()` is f —
for any staging-instance state, string table, in-range reason and function label. -/
theorem EXP_raises_expected_fields (g : stdException) (tbl : List String) (r : Nat)
    (f : String) (h : r < tbl.length) :
    ((EXP g tbl r f).2).code = (r : Int) ∧
      ((EXP g tbl r f).2).what = some (tbl.get ⟨r, h⟩) ∧
      ((EXP g tbl r f).2).whereFn = some f := by
  refine ⟨rfl, ?_, rfl⟩
  show ENUMS tbl (r : Int) = some (tbl.get ⟨r, h⟩)
  exact ENUMS_valid_lookup tbl r h

/-- Witness for C3: reasons {InvalidInput=0, IncorrectUsage=1, WrongType=2}; raising
WrongType from "parse" yields code 2, message "WrongType", origin "parse". -/
theorem EXP_raises_expected_fields_witness :
    ((EXP __Expeption__ (STRINGIFY ["InvalidInput", "IncorrectUsage", "WrongType"])
        2 "parse").2).code = 2 ∧
      ((EXP __Expeption__ (STRINGIFY ["InvalidInput", "IncorrectUsage", "WrongType"])
        2 "parse").2).what = some "WrongType" ∧
      ((EXP __Expeption__ (STRINGIFY ["InvalidInput", "IncorrectUsage", "WrongType"])
        2 "parse").2).whereFn = some "parse" := by
  have h := EXP_raises_expected_fields __Expeption__
    (STRINGIFY ["InvalidInput", "IncorrectUsage", "WrongType"]) 2 "parse" (by decide)
  simpa using h

/-- C4: `set(r, msg, fnc)` (the `operator()` update) followed immediately by `code()`,
`what()` and `where()` on the returned value reads back exactly r, msg and fnc — all
three fields are overwritten by the single update, whatever the previous state. -/
theorem callOp_immediate_readback (e : stdException) (r : Int) (msg fnc : String) :
    ((e.callOp r (some msg) (some fnc)).2).code = r ∧
      ((e.callOp r (some msg) (some fnc)).2).what = some msg ∧
      ((e.callOp r (some msg) (some fnc)).2).whereFn = some fnc :=
  ⟨rfl, rfl, rfl⟩

/-- C5: each call of `operator()` returns the very state it leaves the process-wide
staging instance in, and after two successive raises with fields (r1, m1, f1) then
(r2, m2, f2) the staged instance holds exactly (r2, m2, f2) — the first raise's fields
are overwritten. -/
theorem callOp_overwrites_staging (g : stdException) (r1 r2 : Int)
    (m1 f1 m2 f2 : Option String) :
    (g.callOp r1 m1 f1).2 = (g.callOp r1 m1 f1).1 ∧
      (((g.callOp r1 m1 f1).1).callOp r2 m2 f2).1 =
        { msg_ := m2, func_ := f2, ec_ := r2 } :=
  ⟨rfl, rfl⟩

/-- C6: a freshly constructed exception value, before any update, reports
`code() == -1` and a null message. -/
theorem fresh_code_and_message_sentinels :
    stdException.fresh.code = -1 ∧ stdException.fresh.what = none :=
  ⟨rfl, rfl⟩

/-- C10: a freshly constructed exception value also reports `where()` equal to the
null sentinel — the origin starts unset just like the message. -/
theorem fresh_origin_sentinel : stdException.fresh.whereFn = none :=
  rfl

/-- C9: a by-value copy of any exception value (the shallow memberwise copy made at a
throw/catch boundary) observes exactly the same fields: its `code()`, `what()` and
`where()` agree with the original's. -/
theorem copy_preserves_observed_fields (e : stdException) :
    (e.copyCtor).code = e.code ∧ (e.copyCtor).what = e.what ∧
      (e.copyCtor).whereFn = e.whereFn :=
  ⟨rfl, rfl, rfl⟩
